import Mathlib

/-!
Shallow embedding of the contagion simulation engine (`src/model.py`):
the `Point` geometry primitive, the `Cell` agent with its disease-progress
counter, and the `Model` simulation with population seeding, the pairwise
contact scan, and the completion test.

Coordinates are modelled as rationals.  The numeric constants module
(`projects.pj02.constants`) is not part of the sources; following the
specification it is treated as an external configuration object and is
modelled as an explicit `Constants` parameter.  The Euclidean distance test
`sqrt(dx^2 + dy^2) < CELL_RADIUS` of the source is embedded as the
equivalent squared comparison `dx*dx + dy*dy < CELL_RADIUS*CELL_RADIUS`
(equivalent for the positive `CELL_RADIUS` the configuration supplies).
-/

/-- Modelled from the spec: the constants module `projects.pj02.constants`
is outside the sources.  Section 6 of the spec requires it to supply the
integer disease-state markers `VULNERABLE`, `INFECTED`, `IMMUNE`, the
`RECOVERY_PERIOD` tick count, the contact distance `CELL_RADIUS`, and the
bounding-box parameters `MIN_X`, `MAX_X`, `MIN_Y`, `MAX_Y`. -/
structure Constants where
  VULNERABLE : Int
  INFECTED : Int
  IMMUNE : Int
  RECOVERY_PERIOD : Int
  CELL_RADIUS : ℚ
  MIN_X : ℚ
  MAX_X : ℚ
  MIN_Y : ℚ
  MAX_Y : ℚ
deriving DecidableEq

/-- Modelled from the spec: derived width `BOUNDS_WIDTH = MAX_X - MIN_X`. -/
def Constants.BOUNDS_WIDTH (c : Constants) : ℚ := c.MAX_X - c.MIN_X

/-- Modelled from the spec: derived height `BOUNDS_HEIGHT = MAX_Y - MIN_Y`. -/
def Constants.BOUNDS_HEIGHT (c : Constants) : ℚ := c.MAX_Y - c.MIN_Y

/-- A model of a 2-d cartesian coordinate Point (`Point` in `model.py`). -/
structure Point where
  x : ℚ
  y : ℚ
deriving DecidableEq

namespace Point

/-- `Point.add`: add two Point objects together and return a new Point. -/
def add (self other : Point) : Point := ⟨self.x + other.x, self.y + other.y⟩

/-- Squared Euclidean distance.  `Point.distance` in the source returns
`sqrt((x1-x2)^2 + (y1-y2)^2)`; every use in the engine compares it with
`CELL_RADIUS`, and for a positive radius `sqrt d < r` iff `d < r^2`,
so the embedding works with the square throughout. -/
def distSq (self other : Point) : ℚ :=
  (self.x - other.x) * (self.x - other.x) + (self.y - other.y) * (self.y - other.y)

end Point

/-- An individual subject in the simulation (`Cell` in `model.py`). -/
structure Cell where
  location : Point
  direction : Point
  sickness : Int
deriving DecidableEq

namespace Cell

/-- The location/direction part of a cell's state (everything except the
`sickness` counter), used to state frame conditions. -/
def pose (self : Cell) : Point × Point := (self.location, self.direction)

/-- `Cell.is_vulnerable`: true iff `sickness == VULNERABLE`. -/
def is_vulnerable (c : Constants) (self : Cell) : Bool :=
  self.sickness == c.VULNERABLE

/-- `Cell.is_infected`: the source tests `self.sickness >= constants.INFECTED`. -/
def is_infected (c : Constants) (self : Cell) : Bool :=
  decide (c.INFECTED ≤ self.sickness)

/-- `Cell.is_immune`: true iff `sickness == IMMUNE`. -/
def is_immune (c : Constants) (self : Cell) : Bool :=
  self.sickness == c.IMMUNE

/-- `Cell.contract_disease`: assign the INFECTED constant to `sickness`. -/
def contract_disease (c : Constants) (self : Cell) : Cell :=
  { self with sickness := c.INFECTED }

/-- `Cell.immunize`: assign the IMMUNE constant to `sickness`. -/
def immunize (c : Constants) (self : Cell) : Cell :=
  { self with sickness := c.IMMUNE }

/-- `Cell.tick`: move by `direction`; then, if infected, increment
`sickness` and immunize once it reaches `RECOVERY_PERIOD`. -/
def tick (c : Constants) (self : Cell) : Cell :=
  let moved : Cell := { self with location := self.location.add self.direction }
  if is_infected c moved then
    let sick : Cell := { moved with sickness := moved.sickness + 1 }
    if c.RECOVERY_PERIOD ≤ sick.sickness then immunize c sick else sick
  else moved

/-- `Cell.contact_with`: the in-place mutation of the two Python objects is
embedded as returning the updated pair `(self, other)`. -/
def contact_with (c : Constants) (self other : Cell) : Cell × Cell :=
  if is_infected c self && is_vulnerable c other then
    (self, contract_disease c other)
  else if is_vulnerable c self && is_infected c other then
    (contract_disease c self, other)
  else
    (self, other)

/-- `Cell.color`. -/
def color (c : Constants) (self : Cell) : String :=
  if is_infected c self then "red"
  else if is_immune c self then "blue"
  else "gray"

end Cell

/-- The state of the simulation (`Model` in `model.py`). -/
structure Model where
  population : List Cell
  time : Int
deriving DecidableEq

/-- Index pairs `(j, i)` with `j < i < n`, in the order the source's
`check_contacts` reaches them: the outer `for` walks `j` upward, and for a
fixed `j` the inner `while` walks `i` upward, skipping the current cell and
every cell already in `used_cells` (exactly the cells at indices `≤ j`,
since all population members are distinct objects). -/
def orderedPairs (n : Nat) : List (Nat × Nat) :=
  (List.range n).flatMap fun j =>
    ((List.range n).filter fun i => decide (j < i)).map fun i => (j, i)

/-- Whether the pair of cells at indices `q.1`, `q.2` of `pop` is within
contact range: the source's `cell.location.distance(other.location) <
constants.CELL_RADIUS`, embedded via squared distance. -/
def qualifies (c : Constants) (pop : List Cell) (q : Nat × Nat) : Bool :=
  match pop[q.1]?, pop[q.2]? with
  | some a, some b => decide (Point.distSq a.location b.location < c.CELL_RADIUS * c.CELL_RADIUS)
  | _, _ => false

/-- One candidate pair of the contact scan: if the two cells are within
`CELL_RADIUS`, apply `contact_with` and write both cells back. -/
def contactStep (c : Constants) (q : Nat × Nat) (pop : List Cell) : List Cell :=
  match pop[q.1]?, pop[q.2]? with
  | some a, some b =>
    if Point.distSq a.location b.location < c.CELL_RADIUS * c.CELL_RADIUS then
      (pop.set q.1 (Cell.contact_with c a b).1).set q.2 (Cell.contact_with c a b).2
    else pop
  | _, _ => pop

/-- Run the contact scan over a list of candidate index pairs, returning
the final population together with the list of pairs on which
`contact_with` was actually invoked (the pass's trace). -/
def runContacts (c : Constants) : List (Nat × Nat) → List Cell → List Cell × List (Nat × Nat)
  | [], pop => (pop, [])
  | q :: rest, pop =>
    let next := runContacts c rest (contactStep c q pop)
    if qualifies c pop q then (next.1, q :: next.2) else next

namespace Model

/-- `Model.is_complete`: the source loop returns `False` as soon as some
cell `is_infected()`, else `True`. -/
def is_complete (c : Constants) (self : Model) : Bool :=
  !(self.population.any (Cell.is_infected c))

/-- `Model.check_contacts`: scan every unordered pair of distinct cells
(each once, in source order) and resolve contacts. -/
def check_contacts (c : Constants) (self : Model) : Model :=
  { self with
    population := (runContacts c (orderedPairs self.population.length) self.population).1 }

/-- The pairs on which `check_contacts` invokes `contact_with` during one
pass, in order. -/
def contactLog (c : Constants) (self : Model) : List (Nat × Nat) :=
  (runContacts c (orderedPairs self.population.length) self.population).2

/-- Result of applying the contact scan to an explicit list of candidate
pairs (used to state order-dependence of the pass). -/
def applyPairs (c : Constants) (L : List (Nat × Nat)) (pop : List Cell) : List Cell :=
  (runContacts c L pop).1

/-- `Model.random_location`: `random() * BOUNDS_WIDTH - MAX_X` for x and
`random() * BOUNDS_HEIGHT - MAX_Y` for y, with the two `random()` draws
passed in explicitly as `r1`, `r2`. -/
def random_location (c : Constants) (r1 r2 : ℚ) : Point :=
  ⟨r1 * c.BOUNDS_WIDTH - c.MAX_X, r2 * c.BOUNDS_HEIGHT - c.MAX_Y⟩

/-- `Model.enforce_bounds`: clamp-and-reflect, first matching branch wins
(x before y). -/
def enforce_bounds (c : Constants) (cell : Cell) : Cell :=
  if c.MAX_X < cell.location.x then
    { cell with location := ⟨c.MAX_X, cell.location.y⟩,
                direction := ⟨-cell.direction.x, cell.direction.y⟩ }
  else if cell.location.x < c.MIN_X then
    { cell with location := ⟨c.MIN_X, cell.location.y⟩,
                direction := ⟨-cell.direction.x, cell.direction.y⟩ }
  else if c.MAX_Y < cell.location.y then
    { cell with location := ⟨cell.location.x, c.MAX_Y⟩,
                direction := ⟨cell.direction.x, -cell.direction.y⟩ }
  else if cell.location.y < c.MIN_Y then
    { cell with location := ⟨cell.location.x, c.MIN_Y⟩,
                direction := ⟨cell.direction.x, -cell.direction.y⟩ }
  else cell

/-- `Model.__init__`: validate the three count conditions (raising, here
returning `Except.error`, with the source's messages, before any cell is
built), then build the population in three batches: vulnerable, infected,
immune.  The `random()` location draws and the trigonometric direction
sampling of `random_direction` are abstracted as the injected per-cell
streams `locs` and `dirs`, as the spec's design notes direct for
randomness; the `k`-th constructed cell consumes index `k` of each. -/
def init (c : Constants) (cells : Int) (start_infected start_immune : Int)
    (locs dirs : Nat → Point) : Except String Model :=
  if start_infected ≥ cells ∨ start_infected ≤ 0 then
    Except.error "Some number of the Cell objects must begin infected."
  else if start_immune ≥ cells ∨ start_immune < 0 then
    Except.error "Immune cells must be less than the number of Cell objects."
  else if start_immune + start_infected ≥ cells then
    Except.error "Immune and Infected cells must be less than the number of Cell objects."
  else
    let nv : Nat := (cells - start_infected - start_immune).toNat
    let ni : Nat := start_infected.toNat
    let nm : Nat := start_immune.toNat
    let vuln : List Cell :=
      (List.range nv).map fun k => Cell.mk (locs k) (dirs k) c.VULNERABLE
    let infec : List Cell :=
      (List.range ni).map fun k => Cell.mk (locs (nv + k)) (dirs (nv + k)) c.INFECTED
    let immu : List Cell :=
      (List.range nm).map fun k => Cell.mk (locs (nv + ni + k)) (dirs (nv + ni + k)) c.IMMUNE
    Except.ok { population := vuln ++ infec ++ immu, time := 0 }

/-- `Model.tick`: advance time, move and bound every cell, then run the
contact pass. -/
def tick (c : Constants) (self : Model) : Model :=
  check_contacts c
    { population := self.population.map fun cell => enforce_bounds c (Cell.tick c cell),
      time := self.time + 1 }

end Model

/-! ## Shared concrete inputs -/

/-- Origin point, used for concrete cells whose geometry is irrelevant. -/
def zeroPt : Point := ⟨0, 0⟩

/-- Constant stream of origin points, injected where a concrete
construction's random draws are irrelevant. -/
def zstream : Nat → Point := fun _ => zeroPt

/-! ## C1: completion test -/

/-- Concrete configuration following the spec's stated ordering
`INFECTED < IMMUNE` (`VULNERABLE = 0`, `INFECTED = 1`, `IMMUNE = 5`,
`RECOVERY_PERIOD = 10`). -/
def c1c : Constants := ⟨0, 1, 5, 10, 1, -200, 200, -200, 200⟩

/-- A cell whose sickness equals `IMMUNE` under `c1c`. -/
def cell1 : Cell := ⟨zeroPt, zeroPt, 5⟩

/-- A population consisting of a single immune cell. -/
def m1 : Model := ⟨[cell1], 0⟩

/-- C1, counterexample: under the spec's constants ordering
`INFECTED < IMMUNE`, a population holding one cell at `sickness = IMMUNE`
has no cell in the half-open window `[INFECTED, IMMUNE)`, yet
`is_complete()` returns `false` (the source tests `sickness >= INFECTED`
with no upper bound), contradicting the claim that it returns true when no
cell's sickness lies in that window. -/
theorem is_complete_window_cex :
    Model.is_complete c1c m1 = false ∧ m1.population = [cell1] ∧
    ¬(c1c.INFECTED ≤ cell1.sickness ∧ cell1.sickness < c1c.IMMUNE) := by
  decide

/-- C1 (amended): `is_complete()` returns false iff at least one cell has
`sickness >= INFECTED` — with no upper window bound, so a cell at or above
`IMMUNE` also blocks completion — and true iff every cell's sickness is
strictly below `INFECTED`. -/
theorem is_complete_iff_no_infected (c : Constants) (m : Model) :
    (Model.is_complete c m = false ↔ ∃ cell ∈ m.population, c.INFECTED ≤ cell.sickness) ∧
    (Model.is_complete c m = true ↔ ∀ cell ∈ m.population, cell.sickness < c.INFECTED) := by
  constructor
  · simp [Model.is_complete, Cell.is_infected]
  · simp [Model.is_complete, Cell.is_infected, Int.not_le]

/-! ## C2: construction validation -/

/-- C2: construction succeeds (returns `Except.ok`) iff
`0 < start_infected < cells`, `0 ≤ start_immune < cells` and
`start_infected + start_immune < cells`; on every violating input it
returns the validation error instead, before any cell is built (in this
pure embedding the error branches construct no cell, mirroring the source
where the `raise` precedes the population-building loops). -/
theorem init_error_iff (c : Constants) (cells start_infected start_immune : Int)
    (locs dirs : Nat → Point) :
    (∃ m, Model.init c cells start_infected start_immune locs dirs = Except.ok m) ↔
      (0 < start_infected ∧ start_infected < cells ∧ 0 ≤ start_immune ∧
        start_immune < cells ∧ start_infected + start_immune < cells) := by
  unfold Model.init
  split_ifs with h1 h2 h3
  · refine ⟨fun hex => ?_, fun h => absurd h1 (by omega)⟩
    obtain ⟨m, hm⟩ := hex
    exact hm.elim
  · refine ⟨fun hex => ?_, fun h => absurd h2 (by omega)⟩
    obtain ⟨m, hm⟩ := hex
    exact hm.elim
  · refine ⟨fun hex => ?_, fun h => absurd h3 (by omega)⟩
    obtain ⟨m, hm⟩ := hex
    exact hm.elim
  · exact ⟨fun _ => by omega, fun _ => ⟨_, rfl⟩⟩

/-! ## C3: seeded population composition -/

/-- Number of population members that satisfy `is_infected()`. -/
def infectedCount (c : Constants) (m : Model) : Nat :=
  m.population.countP (Cell.is_infected c)

theorem countP_batch_all (p : Cell → Bool) (mkc : Nat → Cell) (n : Nat)
    (h : ∀ k, p (mkc k) = true) :
    ((List.range n).map mkc).countP p = n := by
  have hall : ∀ a ∈ (List.range n).map mkc, p a = true := by
    intro a ha
    obtain ⟨k, _, rfl⟩ := List.mem_map.mp ha
    exact h k
  simpa using List.countP_eq_length.mpr hall

theorem countP_batch_none (p : Cell → Bool) (mkc : Nat → Cell) (n : Nat)
    (h : ∀ k, p (mkc k) = false) :
    ((List.range n).map mkc).countP p = 0 := by
  rw [List.countP_eq_zero]
  intro a ha
  obtain ⟨k, _, rfl⟩ := List.mem_map.mp ha
  simp [h k]

/-- C3, counterexample: under the spec's constants ordering
`INFECTED < IMMUNE` (here `INFECTED = 1 < IMMUNE = 5`), the valid
construction `Model(cells = 3, start_infected = 1, start_immune = 1)`
yields a population in which 2 members satisfy `is_infected()` — the
seeded infected cell and the seeded immune cell (whose sickness `IMMUNE`
also passes the source's `sickness >= INFECTED` test) — not exactly
`start_infected = 1` as claimed. -/
theorem init_counts_cex :
    (Model.init c1c 3 1 1 zstream zstream).toOption.map (infectedCount c1c) =
      some 2 := by
  decide

/-- C3 (amended): for every valid construction, the population has exactly
`cells` members, of which exactly `start_infected` satisfy `is_infected()`,
exactly `start_immune` satisfy `is_immune()`, and the remaining
`cells - start_infected - start_immune` satisfy `is_vulnerable()` —
provided the configuration keeps `IMMUNE` outside the `is_infected` range
and distinct from `VULNERABLE` (`VULNERABLE < INFECTED`,
`IMMUNE < INFECTED`, `IMMUNE ≠ VULNERABLE`); under the spec's literal
`INFECTED < IMMUNE` ordering the immune batch is counted by
`is_infected()` as well. -/
theorem init_counts (c : Constants) (cells start_infected start_immune : Int)
    (locs dirs : Nat → Point) (m : Model)
    (hVI : c.VULNERABLE < c.INFECTED) (hMI : c.IMMUNE < c.INFECTED)
    (hMV : c.IMMUNE ≠ c.VULNERABLE)
    (hm : Model.init c cells start_infected start_immune locs dirs = Except.ok m) :
    (m.population.length : Int) = cells ∧
    (m.population.countP (Cell.is_infected c) : Int) = start_infected ∧
    (m.population.countP (Cell.is_immune c) : Int) = start_immune ∧
    (m.population.countP (Cell.is_vulnerable c) : Int) =
      cells - start_infected - start_immune := by
  unfold Model.init at hm
  split_ifs at hm with h1 h2 h3
  · injection hm with hm'
    subst hm'
    set nv : Nat := (cells - start_infected - start_immune).toNat with hnv
    set fv : Nat → Cell :=
      fun k => Cell.mk (locs k) (dirs k) c.VULNERABLE with hfv
    set fi : Nat → Cell :=
      fun k => Cell.mk (locs (nv + k)) (dirs (nv + k)) c.INFECTED with hfi
    set fm : Nat → Cell :=
      fun k => Cell.mk (locs (nv + start_infected.toNat + k))
        (dirs (nv + start_infected.toNat + k)) c.IMMUNE with hfm
    have pv_inf : ∀ k, Cell.is_infected c (fv k) = false := by
      intro k; simp [hfv, Cell.is_infected]; omega
    have pi_inf : ∀ k, Cell.is_infected c (fi k) = true := by
      intro k; simp [hfi, Cell.is_infected]
    have pm_inf : ∀ k, Cell.is_infected c (fm k) = false := by
      intro k; simp [hfm, Cell.is_infected]; omega
    have pv_imm : ∀ k, Cell.is_immune c (fv k) = false := by
      intro k; simp [hfv, Cell.is_immune]; omega
    have pi_imm : ∀ k, Cell.is_immune c (fi k) = false := by
      intro k; simp [hfi, Cell.is_immune]; omega
    have pm_imm : ∀ k, Cell.is_immune c (fm k) = true := by
      intro k; simp [hfm, Cell.is_immune]
    have pv_vul : ∀ k, Cell.is_vulnerable c (fv k) = true := by
      intro k; simp [hfv, Cell.is_vulnerable]
    have pi_vul : ∀ k, Cell.is_vulnerable c (fi k) = false := by
      intro k; simp [hfi, Cell.is_vulnerable]; omega
    have pm_vul : ∀ k, Cell.is_vulnerable c (fm k) = false := by
      intro k; simp [hfm, Cell.is_vulnerable]
      omega
    simp only [List.countP_append, List.length_append, List.length_map,
      List.length_range,
      countP_batch_none (Cell.is_infected c) fv nv pv_inf,
      countP_batch_all (Cell.is_infected c) fi start_infected.toNat pi_inf,
      countP_batch_none (Cell.is_infected c) fm start_immune.toNat pm_inf,
      countP_batch_none (Cell.is_immune c) fv nv pv_imm,
      countP_batch_none (Cell.is_immune c) fi start_infected.toNat pi_imm,
      countP_batch_all (Cell.is_immune c) fm start_immune.toNat pm_imm,
      countP_batch_all (Cell.is_vulnerable c) fv nv pv_vul,
      countP_batch_none (Cell.is_vulnerable c) fi start_infected.toNat pi_vul,
      countP_batch_none (Cell.is_vulnerable c) fm start_immune.toNat pm_vul]
    omega

/-- Configuration with `IMMUNE` below `INFECTED` (as the amended C3
requires): `VULNERABLE = 0`, `INFECTED = 1`, `IMMUNE = -1`,
`RECOVERY_PERIOD = 3`. -/
def cw3 : Constants := ⟨0, 1, -1, 3, 1, -200, 200, -200, 200⟩

/-- The population `Model.init cw3 4 1 1 zstream zstream` builds: two
vulnerable cells, one infected, one immune, all at the origin. -/
def wModel3 : Model :=
  ⟨[⟨zeroPt, zeroPt, 0⟩, ⟨zeroPt, zeroPt, 0⟩, ⟨zeroPt, zeroPt, 1⟩,
    ⟨zeroPt, zeroPt, -1⟩], 0⟩

/-- Witness for the amended C3 at the concrete construction
`Model.init cw3 4 1 1`. -/
theorem init_counts_witness :
    (wModel3.population.countP (Cell.is_infected cw3) : Int) = 1 :=
  (init_counts cw3 4 1 1 zstream zstream wModel3 (by decide) (by decide)
    (by decide) rfl).2.1

/-! ## C4: recovery timing -/

/-- How one `Cell.tick` transforms the sickness counter: unchanged unless
infected; an infected cell increments, and immunizes once the incremented
counter reaches `RECOVERY_PERIOD`. -/
theorem tick_sickness (c : Constants) (x : Cell) :
    (Cell.tick c x).sickness =
      if c.INFECTED ≤ x.sickness then
        (if c.RECOVERY_PERIOD ≤ x.sickness + 1 then c.IMMUNE else x.sickness + 1)
      else x.sickness := by
  unfold Cell.tick Cell.immunize Cell.is_infected
  by_cases h1 : c.INFECTED ≤ x.sickness
  · by_cases h2 : c.RECOVERY_PERIOD ≤ x.sickness + 1
    · simp [h1, h2]
    · simp [h1, h2]
  · simp [h1]

/-- Sickness of a cell seeded at `INFECTED`, while still counting up:
after `k` ticks with `k < RECOVERY_PERIOD - INFECTED` the counter reads
`INFECTED + k`. -/
theorem tick_sick_of_lt (c : Constants) (cell : Cell)
    (h0 : cell.sickness = c.INFECTED) :
    ∀ k : Nat, (k : Int) < c.RECOVERY_PERIOD - c.INFECTED →
      ((Cell.tick c)^[k] cell).sickness = c.INFECTED + k := by
  intro k
  induction k with
  | zero => intro _; simpa using h0
  | succ n ih =>
    intro hk
    have hn : (n : Int) < c.RECOVERY_PERIOD - c.INFECTED := by
      push_cast at hk ⊢; omega
    have hs := ih hn
    rw [Function.iterate_succ_apply', tick_sickness, hs]
    rw [if_pos (by omega), if_neg (by push_cast at hk ⊢; omega)]
    push_cast
    ring

/-- Constants with `RECOVERY_PERIOD = 3` and `INFECTED = 1`
(`VULNERABLE = 0`, `IMMUNE = 100`). -/
def c4c : Constants := ⟨0, 1, 100, 3, 1, -200, 200, -200, 200⟩

/-- A cell just set to `INFECTED` under `c4c`. -/
def cell4 : Cell := ⟨zeroPt, zeroPt, 1⟩

/-- C4, counterexample: with `INFECTED = 1` and `RECOVERY_PERIOD = 3`, a
cell just set to `INFECTED` is already immune after 2 ticks — the source
immunizes when the absolute counter reaches `RECOVERY_PERIOD`
(`1 → 2 → immunize at 3`), i.e. after `RECOVERY_PERIOD - INFECTED` ticks —
contradicting the claim that it is not yet immune after any number of
ticks strictly smaller than `R = 3`. -/
theorem recovery_before_R_cex :
    Cell.is_immune c4c (Cell.tick c4c (Cell.tick c4c cell4)) = true := by
  decide

/-- C4 (amended): a cell whose sickness has just been set to `INFECTED`
becomes immune after exactly `RECOVERY_PERIOD - INFECTED` ticks (assuming
`INFECTED < RECOVERY_PERIOD`, and that the `IMMUNE` constant is not one of
the intermediate counter values, i.e. `RECOVERY_PERIOD ≤ IMMUNE` or
`IMMUNE < INFECTED`), and after any strictly smaller number of ticks it is
not yet immune. -/
theorem recovery_exact_ticks (c : Constants) (cell : Cell)
    (h0 : cell.sickness = c.INFECTED)
    (hIR : c.INFECTED < c.RECOVERY_PERIOD)
    (hIM : c.RECOVERY_PERIOD ≤ c.IMMUNE ∨ c.IMMUNE < c.INFECTED) :
    Cell.is_immune c
      ((Cell.tick c)^[(c.RECOVERY_PERIOD - c.INFECTED).toNat] cell) = true ∧
    ∀ k : Nat, k < (c.RECOVERY_PERIOD - c.INFECTED).toNat →
      Cell.is_immune c ((Cell.tick c)^[k] cell) = false := by
  constructor
  · obtain ⟨K, hK⟩ : ∃ K, (c.RECOVERY_PERIOD - c.INFECTED).toNat = K + 1 :=
      ⟨(c.RECOVERY_PERIOD - c.INFECTED).toNat - 1, by omega⟩
    rw [hK, Function.iterate_succ_apply']
    simp only [Cell.is_immune, beq_iff_eq]
    rw [tick_sickness, tick_sick_of_lt c cell h0 K (by omega)]
    rw [if_pos (by omega), if_pos (by omega)]
  · intro k hk
    have hs := tick_sick_of_lt c cell h0 k (by omega)
    simp only [Cell.is_immune, hs, beq_eq_false_iff_ne, ne_eq]
    omega

/-- Witness for the amended C4: under `c4c`
(`RECOVERY_PERIOD - INFECTED = 2`) the seeded infected cell is immune
after 2 ticks and not yet immune after 1. -/
theorem recovery_exact_ticks_witness :
    Cell.is_immune c4c
      ((Cell.tick c4c)^[(c4c.RECOVERY_PERIOD - c4c.INFECTED).toNat] cell4) = true ∧
    Cell.is_immune c4c ((Cell.tick c4c)^[1] cell4) = false :=
  ⟨(recovery_exact_ticks c4c cell4 (by decide) (by decide)
      (Or.inl (by decide))).1,
   (recovery_exact_ticks c4c cell4 (by decide) (by decide)
      (Or.inl (by decide))).2 1 (by decide)⟩

/-! ## C5: sickness monotonicity -/

/-- Constants with `IMMUNE = 5` strictly between `INFECTED = 1` and
`RECOVERY_PERIOD = 10` (consistent with the spec's `INFECTED < IMMUNE`). -/
def c5c : Constants := ⟨0, 1, 5, 10, 1, -200, 200, -200, 200⟩

/-- A cell with sickness 9: reachable under `c5c` from a cell seeded at
`INFECTED = 1` by 8 ticks. -/
def cell5 : Cell := ⟨zeroPt, zeroPt, 9⟩

/-- C5, counterexample: when `IMMUNE < RECOVERY_PERIOD`, the recovery
transition assigns `IMMUNE` over a larger counter value: ticking a cell
with sickness 9 under `c5c` (`RECOVERY_PERIOD = 10`, `IMMUNE = 5`)
increments to 10, triggers `immunize()`, and leaves sickness `5 < 9` —
the counter decreased across a tick. -/
theorem sickness_decrease_cex :
    (Cell.tick c5c cell5).sickness < cell5.sickness := by
  decide

/-- C5 (amended): the sickness counter never decreases across any sequence
of ticks provided the configuration places `IMMUNE` at or above
`RECOVERY_PERIOD` and the cell starts at or below `IMMUNE` (true of every
seeded state); without those provisos the recovery jump to `IMMUNE` can
decrease the counter. -/
theorem sickness_monotone (c : Constants) (cell : Cell)
    (hRI : c.RECOVERY_PERIOD ≤ c.IMMUNE) (hs : cell.sickness ≤ c.IMMUNE) :
    ∀ k : Nat,
      ((Cell.tick c)^[k] cell).sickness ≤ ((Cell.tick c)^[k + 1] cell).sickness := by
  have step : ∀ x : Cell, x.sickness ≤ c.IMMUNE →
      x.sickness ≤ (Cell.tick c x).sickness ∧ (Cell.tick c x).sickness ≤ c.IMMUNE := by
    intro x hx
    rw [tick_sickness]
    split_ifs <;> omega
  have inv : ∀ k : Nat, ((Cell.tick c)^[k] cell).sickness ≤ c.IMMUNE := by
    intro k
    induction k with
    | zero => simpa using hs
    | succ n ih =>
      rw [Function.iterate_succ_apply']
      exact (step _ ih).2
  intro k
  rw [Function.iterate_succ_apply']
  exact (step _ (inv k)).1

/-- Witness for the amended C5 under `c4c` (`RECOVERY_PERIOD = 3 ≤
IMMUNE = 100`), across the tick where the seeded cell immunizes. -/
theorem sickness_monotone_witness :
    ((Cell.tick c4c)^[2] cell4).sickness ≤ ((Cell.tick c4c)^[3] cell4).sickness :=
  sickness_monotone c4c cell4 (by decide) (by decide) 2

/-! ## C6: contact transmission rule -/

/-- C6, counterexample: under the spec's constants ordering
`INFECTED < IMMUNE` (`c5c`: `INFECTED = 1`, `IMMUNE = 5`), an immune cell
passes the source's `is_infected()` test, so a contact between an immune
cell and a vulnerable cell infects the vulnerable one — the claim says a
contact involving an immune party leaves both cells unchanged. -/
theorem contact_immune_cex :
    Cell.is_immune c5c cell1 = true ∧
    (Cell.contact_with c5c cell1 ⟨zeroPt, zeroPt, 0⟩).2 ≠
      (⟨zeroPt, zeroPt, 0⟩ : Cell) := by
  decide

/-- C6 (amended): the branch analysis of `contact_with` as claimed —
at most one direction fires per call, infected/vulnerable contact
transmits, and infected-infected, vulnerable-vulnerable and
immune-involved contacts leave both cells unchanged — holds provided the
configuration separates the three states for the source's tests:
`VULNERABLE < INFECTED`, `IMMUNE < INFECTED` and `IMMUNE ≠ VULNERABLE`.
(Under the spec's literal `INFECTED < IMMUNE` ordering an immune cell
satisfies `is_infected()` and does transmit.) -/
theorem contact_with_cases (c : Constants)
    (hVI : c.VULNERABLE < c.INFECTED) (hMI : c.IMMUNE < c.INFECTED)
    (hMV : c.IMMUNE ≠ c.VULNERABLE) (a b : Cell) :
    (Cell.is_infected c a = true ∧ Cell.is_vulnerable c b = true →
      Cell.contact_with c a b = (a, Cell.contract_disease c b)) ∧
    (Cell.is_vulnerable c a = true ∧ Cell.is_infected c b = true →
      Cell.contact_with c a b = (Cell.contract_disease c a, b)) ∧
    (Cell.is_infected c a = true ∧ Cell.is_infected c b = true →
      Cell.contact_with c a b = (a, b)) ∧
    (Cell.is_vulnerable c a = true ∧ Cell.is_vulnerable c b = true →
      Cell.contact_with c a b = (a, b)) ∧
    ((Cell.is_immune c a = true ∨ Cell.is_immune c b = true) →
      Cell.contact_with c a b = (a, b)) := by
  refine ⟨?_, ?_, ?_, ?_, ?_⟩
  · rintro ⟨ha, hb⟩
    simp only [Cell.is_infected, decide_eq_true_eq] at ha
    simp only [Cell.is_vulnerable, beq_iff_eq] at hb
    unfold Cell.contact_with
    rw [if_pos (by simp [Cell.is_infected, Cell.is_vulnerable, ha, hb])]
  · rintro ⟨ha, hb⟩
    simp only [Cell.is_vulnerable, beq_iff_eq] at ha
    simp only [Cell.is_infected, decide_eq_true_eq] at hb
    unfold Cell.contact_with
    rw [if_neg (by simp [Cell.is_infected, Cell.is_vulnerable, ha]; omega),
      if_pos (by simp [Cell.is_infected, Cell.is_vulnerable, ha, hb])]
  · rintro ⟨ha, hb⟩
    simp only [Cell.is_infected, decide_eq_true_eq] at ha hb
    unfold Cell.contact_with
    rw [if_neg (by simp [Cell.is_infected, Cell.is_vulnerable]; omega),
      if_neg (by simp [Cell.is_infected, Cell.is_vulnerable]; omega)]
  · rintro ⟨ha, hb⟩
    simp only [Cell.is_vulnerable, beq_iff_eq] at ha hb
    unfold Cell.contact_with
    rw [if_neg (by simp [Cell.is_infected, Cell.is_vulnerable, ha]; omega),
      if_neg (by simp [Cell.is_infected, Cell.is_vulnerable, hb]; omega)]
  · intro h
    rcases h with ha | hb
    · simp only [Cell.is_immune, beq_iff_eq] at ha
      unfold Cell.contact_with
      rw [if_neg (by simp [Cell.is_infected, Cell.is_vulnerable, ha]; omega),
        if_neg (by simp [Cell.is_infected, Cell.is_vulnerable, ha]; omega)]
    · simp only [Cell.is_immune, beq_iff_eq] at hb
      unfold Cell.contact_with
      rw [if_neg (by simp [Cell.is_infected, Cell.is_vulnerable, hb]; omega),
        if_neg (by simp [Cell.is_infected, Cell.is_vulnerable, hb]; omega)]

/-- Witness for the amended C6 under `cw3` (`IMMUNE = -1 < INFECTED = 1`):
an infected/vulnerable contact infects the vulnerable party. -/
theorem contact_with_cases_witness :
    Cell.contact_with cw3 cell4 ⟨zeroPt, zeroPt, 0⟩ =
      (cell4, Cell.contract_disease cw3 ⟨zeroPt, zeroPt, 0⟩) :=
  (contact_with_cases cw3 (by decide) (by decide) (by decide) cell4
    ⟨zeroPt, zeroPt, 0⟩).1 ⟨by decide, by decide⟩

/-! ## Contact-scan infrastructure (C7, C8, C10) -/

/-- `contact_with` can only alter the sickness counters: both returned
cells keep their location and direction. -/
theorem contact_with_pose (c : Constants) (a b : Cell) :
    (Cell.contact_with c a b).1.pose = a.pose ∧
    (Cell.contact_with c a b).2.pose = b.pose := by
  unfold Cell.contact_with Cell.contract_disease
  split_ifs <;> simp [Cell.pose]

/-- Setting an entry of a list to the value it already holds is the
identity. -/
theorem set_getElem_self {α : Type} (l : List α) (n : Nat) (a : α)
    (h : l[n]? = some a) : l.set n a = l := by
  apply List.ext_getElem?
  intro m
  rw [List.getElem?_set]
  split_ifs with h1 h2
  · subst h1; exact h.symm
  · subst h1
    rw [List.getElem?_eq_none (by omega)] at h
    cases h
  · rfl

/-- One contact-scan step preserves every cell's location and direction. -/
theorem contactStep_map_pose (c : Constants) (q : Nat × Nat) (pop : List Cell) :
    (contactStep c q pop).map Cell.pose = pop.map Cell.pose := by
  unfold contactStep
  cases ha : pop[q.1]? with
  | none => rfl
  | some a =>
    cases hb : pop[q.2]? with
    | none => rfl
    | some b =>
      dsimp only
      split_ifs with hd
      · have h1 : (pop.map Cell.pose)[q.1]? = some a.pose := by
          rw [List.getElem?_map, ha]; rfl
        rw [List.map_set, List.map_set, (contact_with_pose c a b).1,
          (contact_with_pose c a b).2, set_getElem_self _ _ _ h1]
        apply set_getElem_self
        rw [List.getElem?_map, hb]; rfl
      · rfl

/-- The whole contact pass preserves every cell's location and direction. -/
theorem runContacts_fst_map_pose (c : Constants) :
    ∀ (L : List (Nat × Nat)) (pop : List Cell),
      ((runContacts c L pop).1).map Cell.pose = pop.map Cell.pose := by
  intro L
  induction L with
  | nil => intro pop; rfl
  | cons q rest ih =>
    intro pop
    show ((if qualifies c pop q then
        ((runContacts c rest (contactStep c q pop)).1,
          q :: (runContacts c rest (contactStep c q pop)).2)
      else runContacts c rest (contactStep c q pop)).1).map Cell.pose
        = pop.map Cell.pose
    split_ifs <;>
      exact (ih (contactStep c q pop)).trans (contactStep_map_pose c q pop)

/-- Equal pose maps give equal location maps. -/
theorem map_location_of_map_pose (pop pop' : List Cell)
    (h : pop.map Cell.pose = pop'.map Cell.pose) :
    pop.map Cell.location = pop'.map Cell.location := by
  have h2 := congrArg (List.map Prod.fst) h
  rw [List.map_map, List.map_map] at h2
  exact h2

/-- The within-radius test only reads locations. -/
theorem qualifies_congr (c : Constants) (pop pop0 : List Cell) (q : Nat × Nat)
    (h : pop.map Cell.location = pop0.map Cell.location) :
    qualifies c pop q = qualifies c pop0 q := by
  have h1 : pop[q.1]?.map Cell.location = pop0[q.1]?.map Cell.location := by
    rw [← List.getElem?_map, ← List.getElem?_map, h]
  have h2 : pop[q.2]?.map Cell.location = pop0[q.2]?.map Cell.location := by
    rw [← List.getElem?_map, ← List.getElem?_map, h]
  unfold qualifies
  cases ha : pop[q.1]? <;> cases hb : pop[q.2]? <;>
    cases ha' : pop0[q.1]? <;> cases hb' : pop0[q.2]? <;> simp_all

/-- Unfolding equation for a `runContacts` step. -/
theorem runContacts_cons (c : Constants) (q : Nat × Nat) (L : List (Nat × Nat))
    (pop : List Cell) :
    runContacts c (q :: L) pop =
      if qualifies c pop q then
        ((runContacts c L (contactStep c q pop)).1,
          q :: (runContacts c L (contactStep c q pop)).2)
      else runContacts c L (contactStep c q pop) := rfl

/-- The trace of a contact pass over any candidate list is exactly the
sublist of candidates within radius of the ORIGINAL locations (mid-pass
state changes cannot affect the test, which reads only locations). -/
theorem runContacts_snd (c : Constants) (pop0 : List Cell) :
    ∀ (L : List (Nat × Nat)) (pop : List Cell),
      pop.map Cell.location = pop0.map Cell.location →
      (runContacts c L pop).2 = L.filter (qualifies c pop0) := by
  intro L
  induction L with
  | nil => intro pop _; rfl
  | cons q rest ih =>
    intro pop h
    have hq : qualifies c pop q = qualifies c pop0 q := qualifies_congr c pop pop0 q h
    have hstep : (contactStep c q pop).map Cell.location = pop0.map Cell.location :=
      (map_location_of_map_pose _ _ (contactStep_map_pose c q pop)).trans h
    rw [runContacts_cons]
    cases hq0 : qualifies c pop0 q with
    | false =>
      rw [if_neg (by simp [hq, hq0]), ih _ hstep,
        List.filter_cons_of_neg (by simp [hq0])]
    | true =>
      rw [if_pos (by simp [hq, hq0]), List.filter_cons_of_pos (by simp [hq0])]
      show q :: (runContacts c rest (contactStep c q pop)).2 = _
      rw [ih _ hstep]

/-- Membership in the candidate-pair list: exactly the index pairs
`(j, i)` with `j < i < n`, i.e. each unordered pair of distinct indices
once, in a canonical orientation. -/
theorem orderedPairs_mem (n : Nat) (j i : Nat) :
    (j, i) ∈ orderedPairs n ↔ j < i ∧ i < n := by
  simp only [orderedPairs, List.mem_flatMap, List.mem_map, List.mem_filter,
    List.mem_range, decide_eq_true_eq, Prod.mk.injEq]
  constructor
  · rintro ⟨a, _, b, ⟨hbn, hab⟩, rfl, rfl⟩
    exact ⟨hab, hbn⟩
  · rintro ⟨hji, hin⟩
    exact ⟨j, by omega, i, ⟨hin, hji⟩, rfl, rfl⟩

/-- The candidate-pair list holds no duplicates: no unordered pair is
visited twice within one pass. -/
theorem orderedPairs_nodup (n : Nat) : (orderedPairs n).Nodup := by
  unfold orderedPairs
  rw [List.nodup_flatMap]
  constructor
  · intro j _
    apply List.Nodup.map
    · intro x y hxy
      exact (Prod.mk.injEq _ _ _ _).mp hxy |>.2
    · exact (List.nodup_range n).filter _
  · apply (List.pairwise_lt_range n).imp
    intro a b hlt x hxa hxb
    obtain ⟨i1, _, h1⟩ := List.mem_map.mp hxa
    obtain ⟨i2, _, h2⟩ := List.mem_map.mp hxb
    rw [← h1] at h2
    have : b = a := ((Prod.mk.injEq _ _ _ _).mp h2).1
    omega

/-! ## C7: each within-radius pair contacted exactly once -/

/-- C7: in one `check_contacts` pass, `contact_with` is invoked exactly on
the index pairs `(j, i)` with `j < i < n` (each unordered pair of distinct
cells once, and never twice: the candidate list is duplicate-free) whose
cells lie strictly within `CELL_RADIUS` of each other; pairs at or beyond
the radius receive no invocation. -/
theorem check_contacts_pairs_once (c : Constants) (m : Model) :
    Model.contactLog c m =
      (orderedPairs m.population.length).filter (qualifies c m.population) ∧
    (Model.contactLog c m).Nodup ∧
    (∀ j i : Nat,
      (j, i) ∈ orderedPairs m.population.length ↔
        j < i ∧ i < m.population.length) ∧
    (∀ j i : Nat,
      (j, i) ∈ Model.contactLog c m ↔
        j < i ∧ i < m.population.length ∧
          qualifies c m.population (j, i) = true) := by
  have hlog : Model.contactLog c m =
      (orderedPairs m.population.length).filter (qualifies c m.population) :=
    runContacts_snd c m.population (orderedPairs m.population.length)
      m.population rfl
  refine ⟨hlog, ?_, fun j i => orderedPairs_mem _ j i, ?_⟩
  · rw [hlog]
    exact (orderedPairs_nodup _).filter _
  · intro j i
    rw [hlog, List.mem_filter, orderedPairs_mem]
    tauto

/-! ## C10: the contact pass only writes sickness -/

/-- C10: `check_contacts` modifies only sickness counters: every cell
keeps its location and direction (positionally, so length and membership
of the population are also unchanged), and the tick counter `time` is
untouched. -/
theorem check_contacts_frame (c : Constants) (m : Model) :
    (Model.check_contacts c m).population.map Cell.pose =
      m.population.map Cell.pose ∧
    (Model.check_contacts c m).population.length = m.population.length ∧
    (Model.check_contacts c m).time = m.time := by
  have h := runContacts_fst_map_pose c (orderedPairs m.population.length)
    m.population
  refine ⟨h, ?_, rfl⟩
  have h2 := congrArg List.length h
  simpa using h2

/-! ## C8: order dependence of the contact pass -/

/-- Constants with contact radius `3/2` (`VULNERABLE = 0`, `INFECTED = 1`,
`IMMUNE = -1`, `RECOVERY_PERIOD = 50`). -/
def c8c : Constants := ⟨0, 1, -1, 50, 3/2, -200, 200, -200, 200⟩

/-- Three collinear cells at x = 0, 1, 2: consecutive cells are within
radius `3/2`, the outer two are not; only the first is infected. -/
def pop8 : List Cell :=
  [⟨⟨0, 0⟩, zeroPt, 1⟩, ⟨⟨1, 0⟩, zeroPt, 0⟩, ⟨⟨2, 0⟩, zeroPt, 0⟩]

/-- C8, counterexample: both pairs `(0,1)` and `(1,2)` of `pop8` qualify
(distance 1 < 3/2), yet processing `(0,1)` first infects cell 1 which then
infects cell 2, while the reverse order leaves cell 2 vulnerable — the two
orderings of the same set of qualifying pairs yield different sickness
values, refuting order independence. -/
theorem contact_order_cex :
    qualifies c8c pop8 (0, 1) = true ∧ qualifies c8c pop8 (1, 2) = true ∧
    (Model.applyPairs c8c [(0, 1), (1, 2)] pop8).map Cell.sickness ≠
      (Model.applyPairs c8c [(1, 2), (0, 1)] pop8).map Cell.sickness := by
  refine ⟨?_, ?_, ?_⟩
  · norm_num [qualifies, pop8, c8c, Point.distSq, zeroPt]
  · norm_num [qualifies, pop8, c8c, Point.distSq, zeroPt]
  · have h1 : (Model.applyPairs c8c [(0, 1), (1, 2)] pop8).map Cell.sickness
        = [1, 1, 1] := by
      norm_num [Model.applyPairs, runContacts, contactStep, qualifies, pop8,
        c8c, Point.distSq, Cell.contact_with, Cell.is_infected,
        Cell.is_vulnerable, Cell.contract_disease, zeroPt]
    have h2 : (Model.applyPairs c8c [(1, 2), (0, 1)] pop8).map Cell.sickness
        = [1, 1, 0] := by
      norm_num [Model.applyPairs, runContacts, contactStep, qualifies, pop8,
        c8c, Point.distSq, Cell.contact_with, Cell.is_infected,
        Cell.is_vulnerable, Cell.contract_disease, zeroPt]
    rw [h1, h2]
    decide

theorem contactStep_getElem_ne (c : Constants) (q : Nat × Nat) (pop : List Cell)
    (k : Nat) (h1 : k ≠ q.1) (h2 : k ≠ q.2) :
    (contactStep c q pop)[k]? = pop[k]? := by
  unfold contactStep
  cases pop[q.1]? <;> cases pop[q.2]?
  all_goals try dsimp only
  split_ifs with hd
  · rw [List.getElem?_set_ne (Ne.symm h2), List.getElem?_set_ne (Ne.symm h1)]
  · rfl

theorem contactStep_of_none (c : Constants) (q : Nat × Nat) (pop : List Cell)
    (h : pop[q.1]? = none ∨ pop[q.2]? = none) :
    contactStep c q pop = pop := by
  unfold contactStep
  rcases h with h | h
  · rw [h]
  · rw [h]
    cases pop[q.1]? <;> rfl

theorem contactStep_of_some (c : Constants) (q : Nat × Nat) (pop : List Cell)
    (a b : Cell) (ha : pop[q.1]? = some a) (hb : pop[q.2]? = some b) :
    contactStep c q pop =
      if Point.distSq a.location b.location < c.CELL_RADIUS * c.CELL_RADIUS then
        (pop.set q.1 (Cell.contact_with c a b).1).set q.2
          (Cell.contact_with c a b).2
      else pop := by
  unfold contactStep
  rw [ha, hb]

theorem contactStep_set_ne (c : Constants) (q : Nat × Nat) (pop : List Cell)
    (k : Nat) (x : Cell) (h1 : k ≠ q.1) (h2 : k ≠ q.2) :
    contactStep c q (pop.set k x) = (contactStep c q pop).set k x := by
  unfold contactStep
  rw [List.getElem?_set_ne h1, List.getElem?_set_ne h2]
  cases pop[q.1]? <;> cases pop[q.2]?
  all_goals try dsimp only
  split_ifs with hd
  · rw [List.set_comm _ _ pop h1, List.set_comm _ _ _ h2]
  · rfl

/-- Contact-scan steps on pairs sharing no cell commute. -/
theorem contactStep_comm (c : Constants) (p q : Nat × Nat) (pop : List Cell)
    (h11 : p.1 ≠ q.1) (h12 : p.1 ≠ q.2) (h21 : p.2 ≠ q.1) (h22 : p.2 ≠ q.2) :
    contactStep c p (contactStep c q pop) =
      contactStep c q (contactStep c p pop) := by
  have e1 := contactStep_getElem_ne c q pop p.1 h11 h12
  have e2 := contactStep_getElem_ne c q pop p.2 h21 h22
  cases hA : pop[p.1]? with
  | none =>
    rw [contactStep_of_none c p _ (Or.inl (e1.trans hA)),
      contactStep_of_none c p pop (Or.inl hA)]
  | some a =>
    cases hB : pop[p.2]? with
    | none =>
      rw [contactStep_of_none c p _ (Or.inr (e2.trans hB)),
        contactStep_of_none c p pop (Or.inr hB)]
    | some b =>
      rw [contactStep_of_some c p _ a b (e1.trans hA) (e2.trans hB),
        contactStep_of_some c p pop a b hA hB]
      split_ifs with hd
      · rw [contactStep_set_ne c q _ p.2 _ h21 h22,
          contactStep_set_ne c q pop p.1 _ h11 h12]
      · rfl

theorem runContacts_fst_cons (c : Constants) (q : Nat × Nat)
    (L : List (Nat × Nat)) (pop : List Cell) :
    (runContacts c (q :: L) pop).1 =
      (runContacts c L (contactStep c q pop)).1 := by
  rw [runContacts_cons]
  split_ifs <;> rfl

/-- C8 (amended): processing order is not irrelevant in general (see the
counterexample: a cell infected mid-pass transmits in later pairs of the
same pass); what does hold is that two adjacent contacts on pairs sharing
no cell commute — swapping them yields an identical population. -/
theorem contact_disjoint_comm (c : Constants) (p q : Nat × Nat)
    (L : List (Nat × Nat)) (pop : List Cell)
    (h11 : p.1 ≠ q.1) (h12 : p.1 ≠ q.2) (h21 : p.2 ≠ q.1) (h22 : p.2 ≠ q.2) :
    Model.applyPairs c (p :: q :: L) pop =
      Model.applyPairs c (q :: p :: L) pop := by
  unfold Model.applyPairs
  rw [runContacts_fst_cons, runContacts_fst_cons, runContacts_fst_cons,
    runContacts_fst_cons,
    contactStep_comm c q p pop (Ne.symm h11) (Ne.symm h21) (Ne.symm h12)
      (Ne.symm h22)]

/-- Four collinear cells; pairs `(0,1)` and `(2,3)` share no cell. -/
def pop8w : List Cell :=
  [⟨⟨0, 0⟩, zeroPt, 1⟩, ⟨⟨1, 0⟩, zeroPt, 0⟩, ⟨⟨2, 0⟩, zeroPt, 0⟩,
    ⟨⟨3, 0⟩, zeroPt, 1⟩]

/-- Witness for the amended C8: swapping the disjoint pairs `(0,1)` and
`(2,3)` leaves the result of the pass unchanged. -/
theorem contact_disjoint_comm_witness :
    Model.applyPairs c8c [(0, 1), (2, 3)] pop8w =
      Model.applyPairs c8c [(2, 3), (0, 1)] pop8w :=
  contact_disjoint_comm c8c (0, 1) (2, 3) [] pop8w (by decide) (by decide)
    (by decide) (by decide)

/-! ## C9: random location sampling -/

/-- An asymmetric bounding box: `MIN_X = MIN_Y = 0`, `MAX_X = MAX_Y = 10`. -/
def c9c : Constants := ⟨0, 1, -1, 3, 1, 0, 10, 0, 10⟩

/-- C9, counterexample: the source computes
`random() * BOUNDS_WIDTH - MAX_X`, which lies in `[-MAX_X, -MIN_X)` — not
in `[MIN_X, MAX_X]` unless the box is symmetric about the origin.  With
the box `[0, 10] × [0, 10]` and the valid draw `r = 0`, the sampled x
coordinate is `-10`, outside the configured box. -/
theorem random_location_cex :
    ¬(c9c.MIN_X ≤ (Model.random_location c9c 0 0).x ∧
      (Model.random_location c9c 0 0).x ≤ c9c.MAX_X) := by
  norm_num [Model.random_location, Constants.BOUNDS_WIDTH, c9c]

/-- C9 (amended): for every draw pair `r1, r2 ∈ [0, 1)`, the sampled
location lies within the configured bounding box, provided the box is
symmetric about the origin (`MIN_X = -MAX_X`, `MIN_Y = -MAX_Y`, as in the
reference configuration) and non-degenerate (`MIN_X ≤ MAX_X`,
`MIN_Y ≤ MAX_Y`). -/
theorem random_location_in_bounds (c : Constants) (r1 r2 : ℚ)
    (hx : c.MIN_X = -c.MAX_X) (hy : c.MIN_Y = -c.MAX_Y)
    (hr1 : 0 ≤ r1) (hr1' : r1 < 1) (hr2 : 0 ≤ r2) (hr2' : r2 < 1)
    (hbx : c.MIN_X ≤ c.MAX_X) (hby : c.MIN_Y ≤ c.MAX_Y) :
    c.MIN_X ≤ (Model.random_location c r1 r2).x ∧
    (Model.random_location c r1 r2).x ≤ c.MAX_X ∧
    c.MIN_Y ≤ (Model.random_location c r1 r2).y ∧
    (Model.random_location c r1 r2).y ≤ c.MAX_Y := by
  unfold Model.random_location Constants.BOUNDS_WIDTH Constants.BOUNDS_HEIGHT
  dsimp only
  have hX : (0 : ℚ) ≤ c.MAX_X := by linarith
  have hY : (0 : ℚ) ≤ c.MAX_Y := by linarith
  refine ⟨?_, ?_, ?_, ?_⟩
  · nlinarith [mul_nonneg hr1 hX]
  · nlinarith [mul_nonneg (by linarith : (0 : ℚ) ≤ 1 - r1) hX]
  · nlinarith [mul_nonneg hr2 hY]
  · nlinarith [mul_nonneg (by linarith : (0 : ℚ) ≤ 1 - r2) hY]

/-- Witness for the amended C9: under the symmetric box of `cw3`
(`[-200, 200]²`) and the draws `r1 = r2 = 1/2`, the sampled location lies
in the box. -/
theorem random_location_in_bounds_witness :
    cw3.MIN_X ≤ (Model.random_location cw3 (1/2) (1/2)).x ∧
    (Model.random_location cw3 (1/2) (1/2)).x ≤ cw3.MAX_X ∧
    cw3.MIN_Y ≤ (Model.random_location cw3 (1/2) (1/2)).y ∧
    (Model.random_location cw3 (1/2) (1/2)).y ≤ cw3.MAX_Y :=
  random_location_in_bounds cw3 (1/2) (1/2) (by norm_num [cw3])
    (by norm_num [cw3]) (by norm_num) (by norm_num) (by norm_num)
    (by norm_num) (by norm_num [cw3]) (by norm_num [cw3])
